import Mathlib

/-!
Verification of the component-identity and trust-validation subsystem
(`core/component/auth.go`) of the TTN repository, as a shallow embedding.

External collaborators (gRPC metadata transport, the discovery registry,
the crypto library `security`, the account library) are modelled at their
boundary: their results are passed in as explicit arguments, so every
function here is the pure data-flow of the corresponding Go function.
-/

namespace TTN

/-- The error taxonomy of `utils/errors` as used in `auth.go`:
`NewErrInternal`, `NewErrInvalidArgument(location, reason)`,
`NewErrPermissionDenied`, plus pass-through errors from collaborators
(discovery lookups, JWT validation, OAuth, PEM encoding). -/
inductive TTNError where
  | internal (msg : String)
  | invalidArgument (location reason : String)
  | permissionDenied (msg : String)
  | external (msg : String)
deriving DecidableEq, Repr

def TTNError.isInternal : TTNError → Bool
  | .internal _ => true
  | _ => false

def TTNError.isPermissionDenied : TTNError → Bool
  | .permissionDenied _ => true
  | _ => false

def TTNError.isInvalidArgument : TTNError → Bool
  | .invalidArgument _ _ => true
  | _ => false

/-- Enum `discovery.Metadata.Key` from `api/discovery/discovery.proto`. -/
inductive MetadataKey where
  | OTHER
  | PREFIX
  | APP_EUI
  | APP_ID
deriving DecidableEq, Repr

/-- Message `discovery.Metadata` from `api/discovery/discovery.proto`. -/
structure DiscoveryMetadata where
  key : MetadataKey
  value : List Nat
deriving DecidableEq, Repr

/-- Message `discovery.Announcement` from `api/discovery/discovery.proto`. -/
structure Announcement where
  id : String
  serviceName : String
  serviceVersion : String
  description : String
  url : String
  isPublic : Bool
  netAddress : String
  publicKey : String
  certificate : String
  metadata : List DiscoveryMetadata
deriving DecidableEq, Repr

/-- Claims `jwt.StandardClaims` (dgrijalva/jwt-go); `ValidateNetworkContext`
only consults the `Issuer` claim of a validated token. -/
structure StandardClaims where
  Issuer : String
  ExpiresAt : Int
  Subject : String
deriving DecidableEq, Repr

/-- gRPC metadata `metadata.MD` is a map from keys to lists of values;
modelled as an association list with unique keys looked up by `mdGet`. -/
def MD : Type := List (String × List String)

/-- Lookup of a key in gRPC metadata: `vals, ok := md[key]`. -/
def mdGet (md : MD) (key : String) : Option (List String) :=
  (List.find? (fun p => p.1 = key) md).map Prod.snd

/-- The extraction pattern of `ValidateNetworkContext` for each of
`id`, `service-name`, `token`: the value is taken only when the metadata
entry is present with exactly one value, and is `""` otherwise
(`if vs, ok := md[key]; ok && len(vs) == 1 { x = vs[0] }`). -/
def extractSingle (md : MD) (key : String) : String :=
  match mdGet md key with
  | some [v] => v
  | _ => ""

/-- Stage of `ValidateNetworkContext` after metadata extraction (lines 229-254 of
`auth.go`): discovery lookup, the empty-public-key acceptance, the
token-required check, JWT validation and the issuer/id comparison.
`discover` stands for `c.Discover(serviceName, id)` and `validateJWT`
for `security.ValidateJWT(token, publicKey)`. -/
def afterExtract (discover : String → String → Except TTNError Announcement)
    (validateJWT : String → String → Except TTNError StandardClaims)
    (id serviceName token : String) : Except TTNError Announcement :=
  match discover serviceName id with
  | .error e => .error e
  | .ok announcement =>
    if announcement.publicKey = "" then
      .ok announcement
    else if token = "" then
      .error (.invalidArgument "Metadata" "token missing")
    else
      match validateJWT token announcement.publicKey with
      | .error e => .error e
      | .ok claims =>
        if claims.Issuer ≠ id then
          .error (.invalidArgument "Metadata" "token was issued by different component id")
        else
          .ok announcement

/-- The body of `ValidateNetworkContext` (lines 205-254 of `auth.go`):
`md?` is the result of `metadata.FromContext(ctx)` (`none` when `!ok`),
then the three extractions with their missing-`id`/missing-`service-name`
failures, then `afterExtract`. -/
def validateNetworkBody (md? : Option MD)
    (discover : String → String → Except TTNError Announcement)
    (validateJWT : String → String → Except TTNError StandardClaims) :
    Except TTNError Announcement :=
  match md? with
  | none => .error (.internal "Could not get metadata from context")
  | some md =>
    let id := extractSingle md "id"
    if id = "" then .error (.invalidArgument "Metadata" "id missing")
    else
      let serviceName := extractSingle md "service-name"
      if serviceName = "" then .error (.invalidArgument "Metadata" "service-name missing")
      else afterExtract discover validateJWT id serviceName (extractSingle md "token")

/-- Outcome of one call to `ValidateNetworkContext`: the returned
`(announcement, err)` pair together with the seconds slept by the
deferred throttle (`defer func() { if err != nil { time.Sleep(time.Second) } }()`).
The function is pure: the throttle appears only in this per-call result,
mirroring `time.Sleep`, which touches no state shared between calls. -/
structure NetworkValidation where
  result : Except TTNError Announcement
  sleepSeconds : Nat
deriving Repr

/-- Function `ValidateNetworkContext` (lines 198-255 of `auth.go`): the body plus
the deferred one-second sleep on the failure path. -/
def ValidateNetworkContext (md? : Option MD)
    (discover : String → String → Except TTNError Announcement)
    (validateJWT : String → String → Except TTNError StandardClaims) :
    NetworkValidation :=
  let r := validateNetworkBody md? discover validateJWT
  { result := r
    sleepSeconds := match r with
      | .error _ => 1
      | .ok _ => 0 }

/-- Opaque handle for the component's ECDSA private key
(`*ecdsa.PrivateKey`); only its presence and the PEM derived from it by
the `security` collaborator matter to `auth.go`. -/
structure PrivateKey where
  raw : String
deriving DecidableEq, Repr

/-- The component's `Identity` (`*pb_discovery.Announcement` fields used
by `GetContext`). -/
structure Identity where
  Id : String
  ServiceName : String
  NetAddress : String
deriving DecidableEq, Repr

/-- Function `BuildJWT` (lines 134-143 of `auth.go`): when a private key is
present, derive its PEM (`security.PrivatePEM`, fallible) and sign a
20-second token (`security.BuildJWT(id, 20*time.Second, pem)`); when no
private key is configured, return `("", nil)`. -/
def BuildJWT (privateKey : Option PrivateKey) (identityId : String)
    (privatePEM : PrivateKey → Except String String)
    (securityBuildJWT : String → Nat → String → Except String String) :
    Except String String :=
  match privateKey with
  | some priv =>
    match privatePEM priv with
    | .error e => .error e
    | .ok privPEM => securityBuildJWT identityId 20 privPEM
  | none => .ok ""

/-- Result of `GetContext`: the outgoing metadata stamped by
`metadata.Pairs`, plus whether `BuildJWT` was invoked to generate a
short-lived token for this call. -/
structure OutgoingContext where
  md : List (String × String)
  calledBuildJWT : Bool
deriving DecidableEq, Repr

/-- Function `GetContext` (lines 146-164 of `auth.go`): identity-derived values
default to `""` when `c.Identity` is `nil`; a short-lived token is built
only when the identity is present and the passed token is empty, and its
error is discarded (`token, _ = c.BuildJWT()`, leaving `""` on error). -/
def GetContext (identity : Option Identity) (privateKey : Option PrivateKey)
    (privatePEM : PrivateKey → Except String String)
    (securityBuildJWT : String → Nat → String → Except String String)
    (token : String) : OutgoingContext :=
  match identity with
  | none =>
    { md := [("service-name", ""), ("id", ""), ("token", token), ("net-address", "")]
      calledBuildJWT := false }
  | some ident =>
    let generate := token = ""
    let token :=
      if token = "" then
        match BuildJWT privateKey ident.Id privatePEM securityBuildJWT with
        | .ok t => t
        | .error _ => ""
      else token
    { md := [("service-name", ident.ServiceName), ("id", ident.Id),
             ("token", token), ("net-address", ident.NetAddress)]
      calledBuildJWT := generate }

/-! ## Auth-server registry: `AuthServerRegex` and `parseAuthServer`

`AuthServerRegex` is the anchored Go regular expression
`^(http[s]?://)(?:([0-9a-z_-]+)(?::([0-9A-Za-z-!"#$%&...]+))?@)?([0-9a-z.-]+)/?$`
(the password class is the full punctuation set of line 65 of `auth.go`).
`regexFindSubmatch` below is its functional embedding under Go's
leftmost-first (Perl-style) matching with greedy operators, on anchored
input. -/

def isLowerAlphaChar (c : Char) : Bool := 'a' ≤ c && c ≤ 'z'

/-- The regex class `[0-9a-z_-]` (username, group 2). -/
def isUserChar (c : Char) : Bool :=
  c.isDigit || isLowerAlphaChar c || c = '_' || c = '-'

/-- The regex class `[0-9a-z.-]` (domain, group 4). -/
def isDomainChar (c : Char) : Bool :=
  c.isDigit || isLowerAlphaChar c || c = '.' || c = '-'

/-- The literal punctuation of the password class on line 65 of
`auth.go`; `\x7b` and `\x7d` are the braces, 39 the apostrophe, 34 the
double quote. -/
def passPunct : List Char :=
  ['-', '!', Char.ofNat 34, '#', '$', '%', '&', Char.ofNat 39, '(', ')', '*',
   '+', ',', '.', ':', ';', '<', '=', '>', '?', '@', '[', ']', '^', '_',
   Char.ofNat 123, '|', Char.ofNat 125, '~']

/-- The regex class `[0-9A-Za-z-!"#$%&'()*+,.:;<=>?@[\]^_{|}~]`
(password, group 3). -/
def isPassChar (c : Char) : Bool :=
  c.isDigit || c.isAlpha || passPunct.contains c

/-- Embedding of `(http[s]?://)`: group 1 with the remaining input. The greedy `[s]?`
makes `https://` take priority, deterministically on anchored input. -/
def parseScheme : List Char → Option (String × List Char)
  | 'h' :: 't' :: 't' :: 'p' :: 's' :: ':' :: '/' :: '/' :: rest => some ("https://", rest)
  | 'h' :: 't' :: 't' :: 'p' :: ':' :: '/' :: '/' :: rest => some ("http://", rest)
  | _ => none

/-- Embedding of `([0-9a-z.-]+)/?$`: the greedy domain run followed by an optional
slash and the anchor. A shorter domain run can never help (the next char
would have to be `/` or the end, but is a domain char), so the maximal
run is the leftmost-first match. -/
def parseDomainEnd (l : List Char) : Option (List Char) :=
  let dom := l.takeWhile isDomainChar
  let rest := l.dropWhile isDomainChar
  if dom.isEmpty then none
  else
    match rest with
    | [] => some dom
    | ['/'] => some dom
    | _ => none

/-- Splits `l` at its LAST occurrence of `ch`: the greedy choice for a
`+`-group over a class containing `ch` that must be followed by one
literal `ch` and then text free of `ch`. -/
def splitLastAt (ch : Char) : List Char → Option (List Char × List Char)
  | [] => none
  | c :: cs =>
    match splitLastAt ch cs with
    | some (pre, post) => some (c :: pre, post)
    | none => if c = ch then some ([], cs) else none

/-- Embedding of `(?:([0-9a-z_-]+)(?::(pass))?@)?([0-9a-z.-]+)/?$` after
the scheme: leftmost-first tries the credential group first (maximal
username run, then the optional password up to the last `@`, since the
domain may not contain `@`), and falls back to the bare domain when the
group cannot complete the match (shortening the username run can never
help, since the character after it is not a username character but would
have to be `:` or `@`). Returns `(username, password, domain)`. -/
def parseCredsDomain (l : List Char) : Option (List Char × List Char × List Char) :=
  let user := l.takeWhile isUserChar
  let rest := l.dropWhile isUserChar
  let noGroup : Option (List Char × List Char × List Char) :=
    (parseDomainEnd l).map (fun dom => ([], [], dom))
  if user.isEmpty then noGroup
  else
    match rest with
    | [] => noGroup
    | c :: rest2 =>
      if c = '@' then
        match parseDomainEnd rest2 with
        | some dom => some (user, [], dom)
        | none => noGroup
      else if c = ':' then
        match splitLastAt '@' rest2 with
        | some (pass, rest3) =>
          if pass.isEmpty || !(pass.all isPassChar) then noGroup
          else
            match parseDomainEnd rest3 with
            | some dom => some (user, pass, dom)
            | none => noGroup
        | none => noGroup
      else noGroup

/-- The four capture groups of a successful `AuthServerRegex` match
(`matches[1]` to `matches[4]` of `FindStringSubmatch`; an unmatched
optional group is the empty string). -/
structure RegexMatch where
  scheme : String
  username : String
  password : String
  domain : String
deriving DecidableEq, Repr

/-- Embedding of `AuthServerRegex.FindStringSubmatch(str)` (line 65 of `auth.go`):
`none` models the nil slice of a failed match. -/
def regexFindSubmatch (str : String) : Option RegexMatch :=
  match parseScheme str.data with
  | none => none
  | some (scheme, rest) =>
    match parseCredsDomain rest with
    | none => none
    | some (user, pass, dom) =>
      some { scheme := scheme, username := List.asString user,
             password := List.asString pass, domain := List.asString dom }

/-- Struct `authServer` of `auth.go` (lines 42-46). -/
structure authServer where
  url : String
  username : String
  password : String
deriving DecidableEq, Repr

/-- Message of `ErrNoAuthServerRegexMatch` (line 68 of `auth.go`). -/
def ErrNoAuthServerRegexMatch : String :=
  "Account server did not match AuthServerRegex"

/-- Function `parseAuthServer` (lines 48-58 of `auth.go`): a failed or
domain-less match is `ErrNoAuthServerRegexMatch`; otherwise
`url = matches[1] + matches[4]` with the credential captures. -/
def parseAuthServer (str : String) : Except String authServer :=
  match regexFindSubmatch str with
  | none => .error ErrNoAuthServerRegexMatch
  | some m =>
    if m.domain = "" then .error ErrNoAuthServerRegexMatch
    else .ok { url := m.scheme ++ m.domain, username := m.username, password := m.password }

/-- Provider `tokenkey.HTTPProvider(urlMap, cache)`: modelled by the url map it
is handed, the only data `initAuthServers` computes for it. -/
structure TokenKeyProvider where
  urls : List (String × String)
deriving DecidableEq, Repr

/-- The component state touched by `initAuthServers`:
`c.Config.AuthServers` (a Go map, modelled as an association list in
iteration order) and `c.TokenKeyProvider`. -/
structure Component where
  authServers : List (String × String)
  tokenKeyProvider : Option TokenKeyProvider
deriving DecidableEq, Repr

/-- The loop of `initAuthServers` (lines 71-78 of `auth.go`): parse each
configured server, returning the first error, else the id ↦ url map. -/
def buildUrlMap : List (String × String) → Except String (List (String × String))
  | [] => .ok []
  | (id, url) :: rest =>
    match parseAuthServer url with
    | .error e => .error e
    | .ok srv =>
      match buildUrlMap rest with
      | .error e => .error e
      | .ok m => .ok ((id, srv.url) :: m)

/-- Function `initAuthServers` (lines 70-84 of `auth.go`): on any parse error the
function returns it before `c.TokenKeyProvider` is assigned, and the
partial `urlMap` is a local that never escapes; on success the provider
is installed over the complete map. -/
def initAuthServers (c : Component) : Except String Component :=
  match buildUrlMap c.authServers with
  | .error e => .error e
  | .ok urlMap => .ok { c with tokenKeyProvider := some ⟨urlMap⟩ }

/-- Function `ValidateTTNAuthContext` (lines 258-274 of `auth.go`): `tokenResult`
is `api.TokenFromContext(ctx)`, `fromToken` is
`claims.FromToken(provider, token)` of the account library, returning
opaque claims of type `C`. -/
def ValidateTTNAuthContext {C : Type} (tokenResult : Except TTNError String)
    (provider : Option TokenKeyProvider)
    (fromToken : TokenKeyProvider → String → Except String C) :
    Except TTNError C :=
  match tokenResult with
  | .error e => .error e
  | .ok token =>
    match provider with
    | none => .error (.internal "No token provider configured")
    | some p =>
      match fromToken p token with
      | .error e => .error (.permissionDenied e)
      | .ok c => .ok c

/-- Modelled from the spec: `keys.KeyIssuer` lives in the external
`go-account-lib` dependency, outside this repository. Per §4.7 of the
spec, a key of the form `issuerID.secret` encodes the issuer prefix
before the dot, and a key with no issuer prefix yields the empty
issuer. -/
def KeyIssuer (key : String) : String :=
  let pre := key.data.takeWhile (fun c => c ≠ '.')
  if pre.length = key.data.length then "" else List.asString pre

/-- Function `ExchangeAppKeyForToken` (lines 167-195 of `auth.go`). The Go map
lookup `issuer, ok := c.Config.AuthServers[issuerID]` leaves `issuer`
at the zero value `""` when `!ok`, and the error is built from `issuer`
(not `issuerID`). `srv, _ := parseAuthServer(issuer)` discards the
error, leaving the zero `authServer`. `oauthExchange url username
password appID key` models the OAuth collaborator returning an access
token. -/
def ExchangeAppKeyForToken (authServers : List (String × String))
    (oauthExchange : String → String → String → String → String → Except String String)
    (appID key : String) : Except String String :=
  let issuerID := KeyIssuer key
  let idKey : String × String :=
    if issuerID = "" then
      let issuerID :=
        match authServers with
        | [] => ""
        | (k, _) :: _ => k
      (issuerID, issuerID ++ "." ++ key)
    else (issuerID, key)
  let lookup := (List.find? (fun p => p.1 = idKey.1) authServers).map Prod.snd
  let issuer := lookup.getD ""
  if lookup.isNone then
    .error ("Auth server " ++ issuer ++ " not registered")
  else
    let srv := (parseAuthServer issuer).toOption.getD ⟨"", "", ""⟩
    match oauthExchange srv.url srv.username srv.password appID idKey.2 with
    | .error e => .error e
    | .ok accessToken => .ok accessToken

/-! ## Theorems about the peer trust validator -/

/-- C1: for every inbound call whose metadata yields a non-empty id and
service-name and whose discovery lookup succeeds, an announcement with
an empty `PublicKey` is returned with no error regardless of the token,
while a non-empty `PublicKey` with an empty extracted token yields the
invalid-argument error "token missing". -/
theorem C1_empty_key_accepts_nonempty_key_needs_token
    (md : MD) (discover : String → String → Except TTNError Announcement)
    (validateJWT : String → String → Except TTNError StandardClaims)
    (a : Announcement)
    (hid : extractSingle md "id" ≠ "")
    (hsn : extractSingle md "service-name" ≠ "")
    (hdisc : discover (extractSingle md "service-name") (extractSingle md "id") =
      Except.ok a) :
    (a.publicKey = "" →
      (ValidateNetworkContext (some md) discover validateJWT).result = Except.ok a)
    ∧ (a.publicKey ≠ "" → extractSingle md "token" = "" →
      (ValidateNetworkContext (some md) discover validateJWT).result =
        Except.error (TTNError.invalidArgument "Metadata" "token missing")) := by
  constructor
  · intro hpk
    simp [ValidateNetworkContext, validateNetworkBody, afterExtract, hid, hsn, hdisc, hpk]
  · intro hpk htok
    simp [ValidateNetworkContext, validateNetworkBody, afterExtract, hid, hsn, hdisc, hpk, htok]

theorem C1_witness :
    (extractSingle [("id", ["r1"]), ("service-name", ["router"])] "id" ≠ "")
    ∧ (ValidateNetworkContext (some [("id", ["r1"]), ("service-name", ["router"])])
        (fun _ _ => Except.ok
          { id := "r1", serviceName := "router", serviceVersion := "", description := "",
            url := "", isPublic := false, netAddress := "", publicKey := "",
            certificate := "", metadata := [] })
        (fun _ _ => Except.error (TTNError.external "unused"))).result =
      Except.ok
        { id := "r1", serviceName := "router", serviceVersion := "", description := "",
          url := "", isPublic := false, netAddress := "", publicKey := "",
          certificate := "", metadata := [] } :=
  ⟨by decide,
   (C1_empty_key_accepts_nonempty_key_needs_token
      [("id", ["r1"]), ("service-name", ["router"])]
      (fun _ _ => Except.ok
        { id := "r1", serviceName := "router", serviceVersion := "", description := "",
          url := "", isPublic := false, netAddress := "", publicKey := "",
          certificate := "", metadata := [] })
      (fun _ _ => Except.error (TTNError.external "unused"))
      { id := "r1", serviceName := "router", serviceVersion := "", description := "",
        url := "", isPublic := false, netAddress := "", publicKey := "",
        certificate := "", metadata := [] }
      (by decide) (by decide) rfl).1 rfl⟩

/-- C2: for every inbound call that reaches token validation (non-empty
announcement public key, non-empty extracted token) and whose JWT
validation succeeds, the call fails with the invalid-argument error
"token was issued by different component id" when the token's issuer
claim differs from the metadata id, and returns the announcement with no
error exactly when the issuer claim equals the id. -/
theorem C2_issuer_must_match_id
    (md : MD) (discover : String → String → Except TTNError Announcement)
    (validateJWT : String → String → Except TTNError StandardClaims)
    (a : Announcement) (claims : StandardClaims)
    (hid : extractSingle md "id" ≠ "")
    (hsn : extractSingle md "service-name" ≠ "")
    (hdisc : discover (extractSingle md "service-name") (extractSingle md "id") =
      Except.ok a)
    (hpk : a.publicKey ≠ "")
    (htok : extractSingle md "token" ≠ "")
    (hjwt : validateJWT (extractSingle md "token") a.publicKey = Except.ok claims) :
    (claims.Issuer ≠ extractSingle md "id" →
      (ValidateNetworkContext (some md) discover validateJWT).result =
        Except.error
          (TTNError.invalidArgument "Metadata" "token was issued by different component id"))
    ∧ (claims.Issuer = extractSingle md "id" →
      (ValidateNetworkContext (some md) discover validateJWT).result = Except.ok a) := by
  constructor
  · intro hne
    simp [ValidateNetworkContext, validateNetworkBody, afterExtract,
      hid, hsn, hdisc, hpk, htok, hjwt, hne]
  · intro heq
    simp [ValidateNetworkContext, validateNetworkBody, afterExtract,
      hid, hsn, hdisc, hpk, htok, hjwt, heq]

theorem C2_witness :
    (ValidateNetworkContext
      (some [("id", ["r1"]), ("service-name", ["router"]), ("token", ["jwt1"])])
      (fun _ _ => Except.ok
        { id := "r1", serviceName := "router", serviceVersion := "", description := "",
          url := "", isPublic := false, netAddress := "", publicKey := "PEM",
          certificate := "", metadata := [] })
      (fun _ _ => Except.ok { Issuer := "r2", ExpiresAt := 100, Subject := "" })).result =
      Except.error
        (TTNError.invalidArgument "Metadata" "token was issued by different component id") :=
  (C2_issuer_must_match_id
    [("id", ["r1"]), ("service-name", ["router"]), ("token", ["jwt1"])]
    (fun _ _ => Except.ok
      { id := "r1", serviceName := "router", serviceVersion := "", description := "",
        url := "", isPublic := false, netAddress := "", publicKey := "PEM",
        certificate := "", metadata := [] })
    (fun _ _ => Except.ok { Issuer := "r2", ExpiresAt := 100, Subject := "" })
    { id := "r1", serviceName := "router", serviceVersion := "", description := "",
      url := "", isPublic := false, netAddress := "", publicKey := "PEM",
      certificate := "", metadata := [] }
    { Issuer := "r2", ExpiresAt := 100, Subject := "" }
    (by decide) (by decide) rfl (by decide) (by decide) rfl).1 (by decide)

/-- C3: every execution of `ValidateNetworkContext` sleeps one second
before returning exactly when its returned error is non-nil, and sleeps
nothing on success; the sleep lives in the per-call result of a pure
function, so it mutates no state shared with other calls. -/
theorem C3_throttle_exactly_on_failure
    (md? : Option MD) (discover : String → String → Except TTNError Announcement)
    (validateJWT : String → String → Except TTNError StandardClaims) :
    ((ValidateNetworkContext md? discover validateJWT).sleepSeconds = 1 ↔
      ∃ e, (ValidateNetworkContext md? discover validateJWT).result = Except.error e)
    ∧ ((ValidateNetworkContext md? discover validateJWT).sleepSeconds = 0 ↔
      ∃ a, (ValidateNetworkContext md? discover validateJWT).result = Except.ok a) := by
  unfold ValidateNetworkContext
  cases h : validateNetworkBody md? discover validateJWT <;> simp [h]

/-- C4: metadata entries for `id`, `service-name` and `token` are
treated as absent unless present with exactly one value; an absent or
empty id fails with "id missing", then an absent or empty service-name
fails with "service-name missing", while an absent token passes the
extraction stage, which hands over to discovery with the empty token. -/
theorem C4_extraction_rules
    (md : MD) (discover : String → String → Except TTNError Announcement)
    (validateJWT : String → String → Except TTNError StandardClaims) :
    (∀ key, (mdGet md key = none ∨ ∃ vs, mdGet md key = some vs ∧ vs.length ≠ 1) →
      extractSingle md key = "")
    ∧ (extractSingle md "id" = "" →
      (ValidateNetworkContext (some md) discover validateJWT).result =
        Except.error (TTNError.invalidArgument "Metadata" "id missing"))
    ∧ (extractSingle md "id" ≠ "" → extractSingle md "service-name" = "" →
      (ValidateNetworkContext (some md) discover validateJWT).result =
        Except.error (TTNError.invalidArgument "Metadata" "service-name missing"))
    ∧ (extractSingle md "id" ≠ "" → extractSingle md "service-name" ≠ "" →
      (ValidateNetworkContext (some md) discover validateJWT).result =
        afterExtract discover validateJWT (extractSingle md "id")
          (extractSingle md "service-name") (extractSingle md "token")) := by
  refine ⟨?_, ?_, ?_, ?_⟩
  · intro key h
    unfold extractSingle
    rcases h with h | ⟨vs, hvs, hlen⟩
    · rw [h]
    · rw [hvs]
      match vs, hlen with
      | [], _ => rfl
      | [v], hlen => exact absurd rfl hlen
      | v :: w :: t, _ => rfl
  · intro h
    simp [ValidateNetworkContext, validateNetworkBody, h]
  · intro h1 h2
    simp [ValidateNetworkContext, validateNetworkBody, h1, h2]
  · intro h1 h2
    simp [ValidateNetworkContext, validateNetworkBody, h1, h2]

theorem C4_witness :
    extractSingle [("id", ["r1", "r2"]), ("service-name", ["router"])] "id" = ""
    ∧ (ValidateNetworkContext (some [("id", ["r1", "r2"]), ("service-name", ["router"])])
        (fun _ _ => Except.error (TTNError.external "unused"))
        (fun _ _ => Except.error (TTNError.external "unused"))).result =
      Except.error (TTNError.invalidArgument "Metadata" "id missing") :=
  ⟨by decide,
   (C4_extraction_rules [("id", ["r1", "r2"]), ("service-name", ["router"])]
      (fun _ _ => Except.error (TTNError.external "unused"))
      (fun _ _ => Except.error (TTNError.external "unused"))).2.1 (by decide)⟩

/-! ## Theorems about the end-user token validator -/

/-- C5: when token extraction succeeds, a missing Token-Key Provider
yields the Internal error "No token provider configured" and never a
PermissionDenied error; a configured provider with failing claims
validation yields a PermissionDenied error carrying the underlying
message and never an Internal error. -/
theorem C5_provider_internal_vs_permission_denied
    {C : Type} (tokenResult : Except TTNError String)
    (provider : Option TokenKeyProvider)
    (fromToken : TokenKeyProvider → String → Except String C)
    (token : String) (h : tokenResult = Except.ok token) :
    (provider = none →
      ValidateTTNAuthContext tokenResult provider fromToken =
        Except.error (TTNError.internal "No token provider configured")
      ∧ ∀ m, ValidateTTNAuthContext tokenResult provider fromToken ≠
          Except.error (TTNError.permissionDenied m))
    ∧ (∀ p e, provider = some p → fromToken p token = Except.error e →
      ValidateTTNAuthContext tokenResult provider fromToken =
        Except.error (TTNError.permissionDenied e)
      ∧ ∀ m, ValidateTTNAuthContext tokenResult provider fromToken ≠
          Except.error (TTNError.internal m)) := by
  constructor
  · intro hp
    simp [ValidateTTNAuthContext, h, hp]
  · intro p e hp he
    simp [ValidateTTNAuthContext, h, hp, he]

theorem C5_witness :
    (@ValidateTTNAuthContext Unit (Except.ok "bearer") none (fun _ _ => Except.error "x") =
      Except.error (TTNError.internal "No token provider configured"))
    ∧ (@ValidateTTNAuthContext Unit (Except.ok "bearer") (some ⟨[]⟩)
        (fun _ _ => Except.error "signature invalid") =
      Except.error (TTNError.permissionDenied "signature invalid")) :=
  ⟨((C5_provider_internal_vs_permission_denied (Except.ok "bearer") none
      (fun _ _ => (Except.error "x" : Except String Unit)) "bearer" rfl).1 rfl).1,
   ((C5_provider_internal_vs_permission_denied (Except.ok "bearer") (some ⟨[]⟩)
      (fun _ _ => (Except.error "signature invalid" : Except String Unit)) "bearer" rfl).2
      ⟨[]⟩ "signature invalid" rfl rfl).1⟩

/-! ## Theorems about the credential builder -/

/-- Lookup of a key in the single-valued outgoing metadata stamped by
`GetContext`. -/
def mdValue (md : List (String × String)) (key : String) : Option String :=
  (List.find? (fun p => p.1 = key) md).map Prod.snd

/-- C6 counterexample: with no private key configured, `BuildJWT` does
not fail — it returns the empty token with a nil error. -/
theorem C6_counterexample :
    BuildJWT none "some-component"
      (fun _ => Except.error "no pem") (fun _ _ _ => Except.error "no signer") =
      Except.ok ""
    ∧ ∀ e, BuildJWT none "some-component"
        (fun _ => Except.error "no pem") (fun _ _ _ => Except.error "no signer") ≠
        Except.error e := by
  exact ⟨rfl, fun e h => by simp [BuildJWT] at h⟩

/-- C6 as amended: with no private key configured, `BuildJWT` returns
the empty token with no error, and callers building an outgoing context
proceed without a signed token rather than aborting: `GetContext` with
an empty token argument still returns a context whose `token` metadata
value is empty whenever no private key is available. -/
theorem C6_no_private_key_empty_token
    (identityId : String) (privatePEM : PrivateKey → Except String String)
    (securityBuildJWT : String → Nat → String → Except String String)
    (identity : Option Identity) :
    BuildJWT none identityId privatePEM securityBuildJWT = Except.ok ""
    ∧ mdValue (GetContext identity none privatePEM securityBuildJWT "").md "token" =
      some "" := by
  refine ⟨rfl, ?_⟩
  cases identity with
  | none => simp [GetContext, mdValue]
  | some ident => simp [GetContext, BuildJWT, mdValue]

/-- C10: the context returned by `GetContext` carries exactly the four
metadata keys `service-name`, `id`, `token`, `net-address`; with a nil
`Identity` every identity-derived value is empty, `BuildJWT` is not
invoked even for an empty token argument, and an explicitly passed token
is stamped unchanged. -/
theorem C10_getContext_metadata
    (identity : Option Identity) (privateKey : Option PrivateKey)
    (privatePEM : PrivateKey → Except String String)
    (securityBuildJWT : String → Nat → String → Except String String)
    (token : String) :
    ((GetContext identity privateKey privatePEM securityBuildJWT token).md.map Prod.fst =
      ["service-name", "id", "token", "net-address"])
    ∧ (identity = none →
      GetContext identity privateKey privatePEM securityBuildJWT token =
        { md := [("service-name", ""), ("id", ""), ("token", token), ("net-address", "")]
          calledBuildJWT := false }) := by
  constructor
  · cases identity <;> simp [GetContext]
  · intro h
    subst h
    rfl

theorem C10_witness :
    GetContext none (some ⟨"pk"⟩)
      (fun _ => Except.ok "pem") (fun _ _ _ => Except.ok "signed") "" =
      { md := [("service-name", ""), ("id", ""), ("token", ""), ("net-address", "")]
        calledBuildJWT := false } :=
  (C10_getContext_metadata none (some ⟨"pk"⟩)
    (fun _ => Except.ok "pem") (fun _ _ _ => Except.ok "signed") "").2 rfl

/-! ## Theorems about the app-key exchanger -/

/-- C7 at its failing input: exchanging the key `unknown.secret` when
only the issuer `ttn-account` is configured fails before any OAuth
exchange, but the error message interpolates the empty looked-up URL
(the Go variable `issuer`, zero-valued on a failed map lookup) instead
of the unresolved issuer id `unknown`: the message is
"Auth server  not registered" and does not name the issuer. -/
theorem C7_error_does_not_name_issuer :
    ExchangeAppKeyForToken [("ttn-account", "https://account.thethingsnetwork.org")]
      (fun _ _ _ _ _ => Except.ok "granted") "some-app" "unknown.secret" =
      Except.error "Auth server  not registered"
    ∧ "Auth server  not registered" ≠ "Auth server unknown not registered" := by
  exact ⟨rfl, by decide⟩

/-! ## Theorems about the auth-server registry -/

/-- A malformed entry anywhere in the configured server list makes the
url-map construction of `initAuthServers` fail. -/
theorem buildUrlMap_error_of_bad_entry (l : List (String × String))
    (h : ∃ p ∈ l, ∃ e, parseAuthServer p.2 = Except.error e) :
    ∃ e, buildUrlMap l = Except.error e := by
  induction l with
  | nil => simp at h
  | cons hd tl ih =>
    obtain ⟨p, hmem, e, hp⟩ := h
    rcases List.mem_cons.mp hmem with rfl | hmem
    · exact ⟨e, by simp [buildUrlMap, hp]⟩
    · cases hparse : parseAuthServer hd.2 with
      | error e' => exact ⟨e', by simp [buildUrlMap, hparse]⟩
      | ok srv =>
        obtain ⟨e'', htl⟩ := ih ⟨p, hmem, e, hp⟩
        exact ⟨e'', by simp [buildUrlMap, hparse, htl]⟩

/-- C9: a configured auth-server map containing at least one malformed
entry makes `initAuthServers` fail with a configuration error and
registers nothing: no component state with a Token-Key Provider (or any
partial url map) is ever produced. -/
theorem C9_malformed_entry_fails_registers_nothing (c : Component)
    (h : ∃ p ∈ c.authServers, ∃ e, parseAuthServer p.2 = Except.error e) :
    (∃ e, initAuthServers c = Except.error e)
    ∧ ∀ c', initAuthServers c ≠ Except.ok c' := by
  obtain ⟨e, herr⟩ := buildUrlMap_error_of_bad_entry c.authServers h
  refine ⟨⟨e, ?_⟩, fun c' hc' => ?_⟩
  · simp [initAuthServers, herr]
  · rw [initAuthServers, herr] at hc'
    cases hc'

theorem C9_witness :
    ∃ e, initAuthServers ⟨[("bad-issuer", "ftp://account.example")], none⟩ =
      Except.error e :=
  (C9_malformed_entry_fails_registers_nothing
    ⟨[("bad-issuer", "ftp://account.example")], none⟩
    ⟨("bad-issuer", "ftp://account.example"), by simp,
     ErrNoAuthServerRegexMatch, rfl⟩).1

/-! ## The auth-server grammar: claim C8

The components of an auth-server string: `creds` is the optional
credential section (username with optional password), `https` selects
the scheme, `d` the domain. `specAuthString` places them as the claim's
documented grammar reads (`[username[:password]@]scheme://domain`,
credentials before the scheme); `codeAuthString` places them as the
code's `AuthServerRegex` expects (`scheme://[username[:password]@]domain`). -/

def schemeString (https : Bool) : String :=
  if https then "https://" else "http://"

def credsString : Option (String × Option String) → String
  | none => ""
  | some (u, none) => u ++ "@"
  | some (u, some p) => u ++ ":" ++ p ++ "@"

def credsUser : Option (String × Option String) → String
  | none => ""
  | some (u, _) => u

def credsPass : Option (String × Option String) → String
  | some (_, some p) => p
  | _ => ""

/-- Well-formedness of the credential section per the documented
grammar: a non-empty username over `[0-9a-z_-]` and, when present, a
non-empty password over the regex's password class. -/
def credsOK : Option (String × Option String) → Bool
  | none => true
  | some (u, none) => decide (u ≠ "") && u.data.all isUserChar
  | some (u, some p) =>
    decide (u ≠ "") && u.data.all isUserChar && decide (p ≠ "") && p.data.all isPassChar

/-- Follows the spec's words (the grammar of claim C8): credentials
written in front of the scheme. -/
def specAuthString (creds : Option (String × Option String)) (https : Bool)
    (d : String) : String :=
  credsString creds ++ schemeString https ++ d

/-- The same fields in the order the code's regex actually matches. -/
def codeAuthString (https : Bool) (creds : Option (String × Option String))
    (d : String) : String :=
  schemeString https ++ credsString creds ++ d

theorem asString_data (s : String) : List.asString s.data = s := by
  cases s
  rfl

theorem asString_nil : List.asString [] = "" := rfl

theorem data_ne_nil {s : String} (h : s ≠ "") : s.data ≠ [] :=
  fun hd => h (String.ext hd)

theorem parseScheme_scheme (https : Bool) (rest : List Char) :
    parseScheme ((schemeString https).data ++ rest) = some (schemeString https, rest) := by
  cases https <;> rfl

theorem takeWhile_append_eq {p : Char → Bool} (u : List Char) (c : Char) (r : List Char)
    (hu : u.all p = true) (hc : p c = false) :
    (u ++ c :: r).takeWhile p = u := by
  induction u with
  | nil => simp [List.takeWhile_cons, hc]
  | cons a as ih =>
    simp only [List.all_cons, Bool.and_eq_true] at hu
    simp [List.takeWhile_cons, hu.1, ih hu.2]

theorem dropWhile_append_eq {p : Char → Bool} (u : List Char) (c : Char) (r : List Char)
    (hu : u.all p = true) (hc : p c = false) :
    (u ++ c :: r).dropWhile p = c :: r := by
  induction u with
  | nil => simp [List.dropWhile_cons, hc]
  | cons a as ih =>
    simp only [List.all_cons, Bool.and_eq_true] at hu
    simp [List.dropWhile_cons, hu.1, ih hu.2]

theorem takeWhile_all_eq {p : Char → Bool} (l : List Char) (h : l.all p = true) :
    l.takeWhile p = l := by
  induction l with
  | nil => rfl
  | cons a as ih =>
    simp only [List.all_cons, Bool.and_eq_true] at h
    simp [List.takeWhile_cons, h.1, ih h.2]

theorem dropWhile_all_eq {p : Char → Bool} (l : List Char) (h : l.all p = true) :
    l.dropWhile p = [] := by
  induction l with
  | nil => rfl
  | cons a as ih =>
    simp only [List.all_cons, Bool.and_eq_true] at h
    simp [List.dropWhile_cons, h.1, ih h.2]

/-- Whatever `dropWhile` returns starts with an element of the original
list, so a predicate holding on the whole list holds on that head. -/
theorem dropWhile_head_all {p q : Char → Bool} {l : List Char} {c : Char} {cs : List Char}
    (hall : l.all q = true) (h : l.dropWhile p = c :: cs) : q c = true := by
  induction l with
  | nil => simp [List.dropWhile] at h
  | cons a as ih =>
    simp only [List.all_cons, Bool.and_eq_true] at hall
    rw [List.dropWhile_cons] at h
    by_cases hp : p a = true
    · exact ih hall.2 (by simpa [hp] using h)
    · simp [hp] at h
      exact h.1 ▸ hall.1

theorem splitLastAt_of_not_mem {ch : Char} {l : List Char} (h : ch ∉ l) :
    splitLastAt ch l = none := by
  induction l with
  | nil => rfl
  | cons c cs ih =>
    simp only [List.mem_cons, not_or] at h
    have hc : c ≠ ch := fun hcc => h.1 hcc.symm
    unfold splitLastAt
    rw [ih h.2]
    simp [hc]

theorem splitLastAt_append {ch : Char} (p q : List Char) (hq : ch ∉ q) :
    splitLastAt ch (p ++ ch :: q) = some (p, q) := by
  induction p with
  | nil =>
    rw [List.nil_append]
    unfold splitLastAt
    rw [splitLastAt_of_not_mem hq]
    simp
  | cons a as ih =>
    rw [List.cons_append]
    unfold splitLastAt
    rw [ih]

theorem parseDomainEnd_all {d : List Char} (hne : d ≠ [])
    (hd : d.all isDomainChar = true) : parseDomainEnd d = some d := by
  simp only [parseDomainEnd, takeWhile_all_eq d hd, dropWhile_all_eq d hd]
  cases d with
  | nil => exact absurd rfl hne
  | cons c cs => rfl

theorem not_mem_of_all_not {p : Char → Bool} {c : Char} {l : List Char}
    (hall : l.all p = true) (hc : p c = false) : c ∉ l := by
  intro hm
  have hpc := List.all_eq_true.mp hall c hm
  rw [hc] at hpc
  cases hpc

/-- On input that is one well-formed domain, the credential group of the
regex cannot complete (no `@` is available), so the leftmost-first match
skips it and captures the whole input as the domain. -/
theorem parseCredsDomain_domain_only {d : List Char} (hne : d ≠ [])
    (hd : d.all isDomainChar = true) :
    parseCredsDomain d = some ([], [], d) := by
  unfold parseCredsDomain
  simp only [parseDomainEnd_all hne hd, Option.map_some']
  by_cases hu : (d.takeWhile isUserChar).isEmpty = true
  · simp [hu]
  · simp only [hu, if_false]
    cases hrest : d.dropWhile isUserChar with
    | nil => simp [hu, hrest]
    | cons c cs =>
      have hcdom : isDomainChar c = true := dropWhile_head_all hd hrest
      have h1 : c ≠ '@' := by
        intro h
        rw [h] at hcdom
        exact absurd hcdom (by decide)
      have h2 : c ≠ ':' := by
        intro h
        rw [h] at hcdom
        exact absurd hcdom (by decide)
      simp [hu, hrest, h1, h2]

/-- On input `user@domain` the credential group matches the maximal
username run and no password, then the domain. -/
theorem parseCredsDomain_user {u d : List Char} (hu : u ≠ [])
    (hual : u.all isUserChar = true) (hdne : d ≠ []) (hd : d.all isDomainChar = true) :
    parseCredsDomain (u ++ '@' :: d) = some (u, [], d) := by
  have ht := takeWhile_append_eq u '@' d hual (by decide)
  have hdr := dropWhile_append_eq u '@' d hual (by decide)
  unfold parseCredsDomain
  simp only [ht, hdr]
  simp [List.isEmpty_iff, hu, parseDomainEnd_all hdne hd]

/-- On input `user:pass@domain` the credential group matches the maximal
username run, then the greedy password up to the final `@` (the domain
may not contain one), then the domain. -/
theorem parseCredsDomain_user_pass {u p d : List Char} (hu : u ≠ [])
    (hual : u.all isUserChar = true) (hp : p ≠ []) (hpal : p.all isPassChar = true)
    (hdne : d ≠ []) (hd : d.all isDomainChar = true) :
    parseCredsDomain (u ++ ':' :: (p ++ '@' :: d)) = some (u, p, d) := by
  have ht := takeWhile_append_eq u ':' (p ++ '@' :: d) hual (by decide)
  have hdr := dropWhile_append_eq u ':' (p ++ '@' :: d) hual (by decide)
  have hnm : '@' ∉ d := not_mem_of_all_not hd (show isDomainChar '@' = false by decide)
  have hsplit := splitLastAt_append p d hnm
  unfold parseCredsDomain
  simp only [ht, hdr]
  simp [List.isEmpty_iff, hu, hp, hsplit, hpal, parseDomainEnd_all hdne hd]

/-- C8 counterexample: the string `user@http://domain` is well-formed
for the claim's documented grammar (credentials before the scheme), yet
`parseAuthServer` rejects it, so parsing the documented grammar is not
lossless — it does not even succeed. -/
theorem C8_counterexample :
    specAuthString (some ("user", none)) false "domain" = "user@http://domain"
    ∧ credsOK (some ("user", none)) = true
    ∧ "domain" ≠ ""
    ∧ "domain".data.all isDomainChar = true
    ∧ parseAuthServer (specAuthString (some ("user", none)) false "domain") =
        Except.error ErrNoAuthServerRegexMatch := by
  exact ⟨rfl, by decide, by decide, by decide, rfl⟩

/-- C8 as amended: the grammar the code accepts places the credentials
after the scheme, `scheme://[username[:password]@]domain`; for every
well-formed string of that grammar, `parseAuthServer` succeeds and is
lossless: the endpoint's url is scheme+domain and its username and
password equal the credentials of the input (empty when absent). -/
theorem C8_amended_parse_lossless (https : Bool)
    (creds : Option (String × Option String)) (d : String)
    (hdne : d ≠ "") (hd : d.data.all isDomainChar = true)
    (hc : credsOK creds = true) :
    parseAuthServer (codeAuthString https creds d) =
      Except.ok { url := schemeString https ++ d,
                  username := credsUser creds, password := credsPass creds } := by
  rcases creds with _ | ⟨u, _ | p⟩
  · have hsh : (codeAuthString https none d).data =
        (schemeString https).data ++ d.data := by
      simp [codeAuthString, credsString, String.data_append]
    unfold parseAuthServer regexFindSubmatch
    simp only [hsh, parseScheme_scheme,
      parseCredsDomain_domain_only (data_ne_nil hdne) hd]
    simp [asString_data, asString_nil, hdne, credsUser, credsPass]
  · simp only [credsOK, Bool.and_eq_true, decide_eq_true_eq] at hc
    obtain ⟨hu, hual⟩ := hc
    have h1 : ("@" : String).data = ['@'] := rfl
    have hsh : (codeAuthString https (some (u, none)) d).data =
        (schemeString https).data ++ (u.data ++ '@' :: d.data) := by
      simp [codeAuthString, credsString, String.data_append, h1, List.append_assoc]
    unfold parseAuthServer regexFindSubmatch
    simp only [hsh, parseScheme_scheme,
      parseCredsDomain_user (data_ne_nil hu) hual (data_ne_nil hdne) hd]
    simp [asString_data, asString_nil, hdne, credsUser, credsPass]
  · simp only [credsOK, Bool.and_eq_true, decide_eq_true_eq] at hc
    obtain ⟨⟨⟨hu, hual⟩, hp⟩, hpal⟩ := hc
    have h1 : ("@" : String).data = ['@'] := rfl
    have h2 : (":" : String).data = [':'] := rfl
    have hsh : (codeAuthString https (some (u, some p)) d).data =
        (schemeString https).data ++ (u.data ++ ':' :: (p.data ++ '@' :: d.data)) := by
      simp [codeAuthString, credsString, String.data_append, h1, h2, List.append_assoc]
    unfold parseAuthServer regexFindSubmatch
    simp only [hsh, parseScheme_scheme,
      parseCredsDomain_user_pass (data_ne_nil hu) hual (data_ne_nil hp) hpal
        (data_ne_nil hdne) hd]
    simp [asString_data, asString_nil, hdne, credsUser, credsPass]

theorem C8_witness :
    ("d" ≠ "")
    ∧ "d".data.all isDomainChar = true
    ∧ credsOK (some ("u", some "p")) = true
    ∧ parseAuthServer (codeAuthString false (some ("u", some "p")) "d") =
        Except.ok { url := schemeString false ++ "d", username := "u", password := "p" } :=
  ⟨by decide, by decide, by decide,
   C8_amended_parse_lossless false (some ("u", some "p")) "d"
     (by decide) (by decide) (by decide)⟩

end TTN
